import Mathlib

/-!
# School savings ledger — verification of the transaction core

Shallow embedding of the `school-savings-app` server's transaction core:

* `src/server/src/db/schema.ts` — table shapes (`student_profiles`,
  `transactions`, `classes`); monetary columns are `numeric(12,2)`,
  modelled here as exact rationals (`ℚ`).
* `src/server/src/handlers/transactions.ts` — `createTransaction`,
  `getTransactionsReport`, `getDailyTransactionSummary`.
* `src/server/src/handlers/students.ts` — `updateStudentBalance`.
* `src/server/src/schema.ts` (`createTransactionInputSchema`) and the tRPC
  router — input validation (`z.number().positive()`) running before the
  handler.

The database is a record of in-memory tables.  `db.transaction` of the
storage layer is modelled by its contract: the handler body either returns
a whole new database state (commit) or an error, in which case the caller
keeps the old state (rollback).  Infrastructure failures of the two write
statements inside the transaction are modelled by a `StorageFault`
parameter.  Timestamps are epoch milliseconds (`Nat`) in the single
implicit reporting timezone; `defaultNow()` columns are filled from a
`now` field of the database state.
-/

namespace SchoolSavings

/-- `transactionTypeSchema` / `transaction_type` enum: `'DEPOSIT' | 'WITHDRAWAL'`. -/
inductive TransactionType
  | DEPOSIT
  | WITHDRAWAL
deriving DecidableEq, Repr

/-- Ledger-relevant fields of a `student_profiles` row (`db/schema.ts`).
Display-only fields (`parent_name`, `address`, …) are omitted. -/
structure StudentProfile where
  id : Nat
  user_id : Nat
  nis : String
  class_id : Nat
  current_balance : ℚ
deriving DecidableEq, Repr

/-- A `transactions` row (`db/schema.ts`): the immutable ledger entry. -/
structure TransactionRow where
  id : Nat
  student_id : Nat
  staff_id : Nat
  type : TransactionType
  amount : ℚ
  balance_before : ℚ
  balance_after : ℚ
  description : Option String
  transaction_date : Nat
  created_at : Nat
deriving DecidableEq, Repr

/-- The persistent state the transaction core reads and writes: the class
ids (for the report's inner join), the student profiles, the ledger, the
next `serial` id, and the clock used for `defaultNow()` columns. -/
structure DB where
  classes : List Nat
  students : List StudentProfile
  transactions : List TransactionRow
  nextTransactionId : Nat
  now : Nat
deriving DecidableEq, Repr

/-- `CreateTransactionInput` (`schema.ts`): `student_id`, `type`, `amount`,
optional nullable `description`. -/
structure CreateTransactionInput where
  student_id : Nat
  type : TransactionType
  amount : ℚ
  description : Option String
deriving DecidableEq, Repr

/-- The error taxonomy of a posting: the three `throw new Error(...)` sites
of `createTransaction` plus the zod rejection and an infrastructure fault. -/
inductive TxError
  | studentNotFound
  | insufficientBalance
  | invalidAmount
  | storageFailure
deriving DecidableEq, Repr

/-- Injected infrastructure failures of the two write statements inside
`db.transaction`: the `tx.update` of the balance and the `tx.insert` of the
ledger row. -/
structure StorageFault where
  failUpdate : Bool
  failInsert : Bool
deriving DecidableEq, Repr

/-- No infrastructure failure. -/
def noFault : StorageFault := ⟨false, false⟩

/-- `tx.select().from(studentProfilesTable).where(eq(id, sid))`, first row. -/
def findStudent (db : DB) (sid : Nat) : Option StudentProfile :=
  db.students.find? (fun s => s.id == sid)

/-- The `current_balance` of the student with id `sid`, when it exists. -/
def balanceOf (db : DB) (sid : Nat) : Option ℚ :=
  (findStudent db sid).map (·.current_balance)

/-- `UPDATE student_profiles SET current_balance = b WHERE id = sid`. -/
def setBalance (students : List StudentProfile) (sid : Nat) (b : ℚ) :
    List StudentProfile :=
  students.map (fun s => if s.id == sid then { s with current_balance := b } else s)

/-- Steps 4–6 of the handler body, after the new balance was computed:
`tx.update` the student's balance, `tx.insert` the ledger row (with
`description: input.description || null`, JS falsy `""` coerced to null),
and return the created row.  `fault` injects infrastructure failures of the
two write statements. -/
def commitTransaction (fault : StorageFault) (staffId : Nat)
    (input : CreateTransactionInput) (db : DB) (student : StudentProfile)
    (newBalance : ℚ) : Except TxError (DB × TransactionRow) :=
  if fault.failUpdate then .error .storageFailure
  else
    let db1 : DB :=
      { db with students := setBalance db.students input.student_id newBalance }
    if fault.failInsert then .error .storageFailure
    else
      let row : TransactionRow :=
        { id := db.nextTransactionId
          student_id := input.student_id
          staff_id := staffId
          type := input.type
          amount := input.amount
          balance_before := student.current_balance
          balance_after := newBalance
          description :=
            match input.description with
            | some s => if s == "" then none else some s
            | none => none
          transaction_date := db.now
          created_at := db.now }
      .ok ({ db1 with
              transactions := db1.transactions ++ [row]
              nextTransactionId := db.nextTransactionId + 1 }, row)

/-- `createTransaction` (`handlers/transactions.ts`, lines 16–75), the body
run inside `db.transaction`: select the student (else `Student not found`),
compute the new balance (`currentBalance + amount` for DEPOSIT,
`currentBalance - amount` for WITHDRAWAL with the negative-balance check),
then commit the balance update and the ledger insert. -/
def createTransaction (fault : StorageFault) (staffId : Nat)
    (input : CreateTransactionInput) (db : DB) :
    Except TxError (DB × TransactionRow) :=
  match findStudent db input.student_id with
  | none => .error .studentNotFound
  | some student =>
    match input.type with
    | .DEPOSIT =>
      commitTransaction fault staffId input db student
        (student.current_balance + input.amount)
    | .WITHDRAWAL =>
      if student.current_balance - input.amount < 0 then
        .error .insufficientBalance
      else
        commitTransaction fault staffId input db student
          (student.current_balance - input.amount)

/-- A posting as seen by a caller of the tRPC `createTransaction` route:
`createTransactionInputSchema` validates `amount` (`z.number().positive()`)
before the handler runs, then the handler body executes inside
`db.transaction`, so an error leaves the database unchanged (rollback). -/
def postTransaction (fault : StorageFault) (staffId : Nat)
    (input : CreateTransactionInput) (db : DB) :
    DB × Except TxError TransactionRow :=
  if input.amount ≤ 0 then (db, .error .invalidAmount)
  else
    match createTransaction fault staffId input db with
    | .ok (db', row) => (db', .ok row)
    | .error e => (db, .error e)

/-- `updateStudentBalance` (`handlers/students.ts`, lines 124–138): sets
`current_balance` to `newBalance` unconditionally, with no nonnegativity
check and no ledger write. -/
def updateStudentBalance (db : DB) (studentId : Nat) (newBalance : ℚ) : DB :=
  { db with students := setBalance db.students studentId newBalance }

/-- A sequence of postings in which every posting succeeds; `none` when one
of them fails. -/
def postMany (staffId : Nat) (inputs : List CreateTransactionInput) (db : DB) :
    Option DB :=
  match inputs with
  | [] => some db
  | i :: rest =>
    match postTransaction noFault staffId i db with
    | (db', .ok _) => postMany staffId rest db'
    | (_, .error _) => none

/-- Total of the DEPOSIT amounts a list of inputs posts to student `sid`. -/
def depositTotal (sid : Nat) (inputs : List CreateTransactionInput) : ℚ :=
  ((inputs.filter
      (fun i => i.student_id == sid && i.type == TransactionType.DEPOSIT)).map
    (·.amount)).sum

/-- Total of the WITHDRAWAL amounts a list of inputs posts to student `sid`. -/
def withdrawalTotal (sid : Nat) (inputs : List CreateTransactionInput) : ℚ :=
  ((inputs.filter
      (fun i => i.student_id == sid && i.type == TransactionType.WITHDRAWAL)).map
    (·.amount)).sum

/-- All stored balances are nonnegative. -/
def Wf (db : DB) : Prop := ∀ s ∈ db.students, 0 ≤ s.current_balance

instance (db : DB) : Decidable (Wf db) := by
  unfold Wf; infer_instance

/-! ## Ledger Query: report filtering and the daily summary -/

/-- One calendar day in epoch milliseconds. -/
def msPerDay : Nat := 86400000

/-- `new Date(d); setHours(0, 0, 0, 0)`: midnight of `d`'s calendar day. -/
def startOfDayMs (t : Nat) : Nat := t / msPerDay * msPerDay

/-- `new Date(d); setHours(23, 59, 59, 999)`: last millisecond of the day. -/
def endOfDayMs (t : Nat) : Nat := startOfDayMs t + (msPerDay - 1)

/-- `ReportFilters` (`schema.ts` `reportFiltersSchema`): all fields optional. -/
structure ReportFilters where
  start_date : Option Nat
  end_date : Option Nat
  student_id : Option Nat
  class_id : Option Nat
  transaction_type : Option TransactionType
deriving DecidableEq, Repr

/-- `orderBy(desc(created_at))` comparison, as a sorting relation. -/
def createdDesc (a b : TransactionRow) : Prop :=
  b.created_at ≤ a.created_at

instance : DecidableRel createdDesc := fun a b =>
  Nat.decLe b.created_at a.created_at

/-- The report's base rows: transactions `innerJoin` their student profile
`innerJoin` the student's class, ordered by `created_at` descending (a
stable sort models the SQL `ORDER BY`).  A row survives the joins only when
its student profile and that profile's class exist. -/
def reportBase (db : DB) : List (TransactionRow × StudentProfile) :=
  (List.insertionSort createdDesc db.transactions).filterMap fun t =>
    match findStudent db t.student_id with
    | some s => if db.classes.contains s.class_id then some (t, s) else none
    | none => none

/-- The `if (filters.start_date)` block: a present start date keeps rows
with `transaction_date ≥` midnight of its day. -/
def filterStart (sd : Option Nat) (l : List (TransactionRow × StudentProfile)) :
    List (TransactionRow × StudentProfile) :=
  match sd with
  | some d => l.filter fun r => Nat.ble (startOfDayMs d) r.1.transaction_date
  | none => l

/-- The `if (filters.end_date)` block: a present end date keeps rows with
`transaction_date ≤` the last millisecond of its day. -/
def filterEnd (ed : Option Nat) (l : List (TransactionRow × StudentProfile)) :
    List (TransactionRow × StudentProfile) :=
  match ed with
  | some d => l.filter fun r => Nat.ble r.1.transaction_date (endOfDayMs d)
  | none => l

/-- The `if (filters.student_id)` block: JS truthiness, so a provided `0`
is skipped like an absent filter. -/
def filterStudent (sid : Option Nat)
    (l : List (TransactionRow × StudentProfile)) :
    List (TransactionRow × StudentProfile) :=
  match sid with
  | some v => if v == 0 then l else l.filter fun r => r.1.student_id == v
  | none => l

/-- The `if (filters.class_id)` block: JS truthiness again; the class is
the joined student profile's `class_id`. -/
def filterClass (cid : Option Nat)
    (l : List (TransactionRow × StudentProfile)) :
    List (TransactionRow × StudentProfile) :=
  match cid with
  | some v => if v == 0 then l else l.filter fun r => r.2.class_id == v
  | none => l

/-- The `if (filters.transaction_type)` block. -/
def filterType (ty : Option TransactionType)
    (l : List (TransactionRow × StudentProfile)) :
    List (TransactionRow × StudentProfile) :=
  match ty with
  | some v => l.filter fun r => r.1.type == v
  | none => l

/-- `getTransactionsReport` (`handlers/transactions.ts`, lines 160–262):
fetch the joined rows, then apply each provided filter in memory, in the
handler's order.  The enrichment of rows with user/class display names is
dropped: it does not affect which ledger rows are returned. -/
def getTransactionsReport (filters : ReportFilters) (db : DB) :
    List TransactionRow :=
  (filterType filters.transaction_type
    (filterClass filters.class_id
      (filterStudent filters.student_id
        (filterEnd filters.end_date
          (filterStart filters.start_date (reportBase db)))))).map (·.1)

/-- The ledger entries whose `transaction_date` falls within the calendar
day of `date` (the `WHERE ... BETWEEN startOfDay AND endOfDay` clause of
`getDailyTransactionSummary`). -/
def entriesOnDay (date : Nat) (db : DB) : List TransactionRow :=
  db.transactions.filter fun t =>
    Nat.ble (startOfDayMs date) t.transaction_date &&
      Nat.ble t.transaction_date (endOfDayMs date)

/-- The day's entries of type DEPOSIT. -/
def depositsOnDay (date : Nat) (db : DB) : List TransactionRow :=
  (entriesOnDay date db).filter fun t => t.type == TransactionType.DEPOSIT

/-- The day's entries of type WITHDRAWAL. -/
def withdrawalsOnDay (date : Nat) (db : DB) : List TransactionRow :=
  (entriesOnDay date db).filter fun t => t.type == TransactionType.WITHDRAWAL

/-- The SQL `GROUP BY type` result rows: `(type, sum(amount), count)`, one
row per type that has at least one matching entry. -/
def summaryRows (date : Nat) (db : DB) : List (TransactionType × ℚ × Nat) :=
  (if (depositsOnDay date db).isEmpty then []
   else [(TransactionType.DEPOSIT,
          ((depositsOnDay date db).map (·.amount)).sum,
          (depositsOnDay date db).length)]) ++
  (if (withdrawalsOnDay date db).isEmpty then []
   else [(TransactionType.WITHDRAWAL,
          ((withdrawalsOnDay date db).map (·.amount)).sum,
          (withdrawalsOnDay date db).length)])

/-- The result shape of `getDailyTransactionSummary`. -/
structure DailySummary where
  total_transactions : Nat
  total_deposits : Nat
  total_withdrawals : Nat
  deposit_amount : ℚ
  withdrawal_amount : ℚ
deriving DecidableEq, Repr

/-- `getDailyTransactionSummary` (`handlers/transactions.ts`, lines
262–321): run the grouped query for the calendar day, then accumulate the
per-type rows into the five counters, starting from all zeros. -/
def getDailyTransactionSummary (date : Nat) (db : DB) : DailySummary :=
  (summaryRows date db).foldl
    (fun acc row =>
      let acc := { acc with total_transactions := acc.total_transactions + row.2.2 }
      match row.1 with
      | .DEPOSIT =>
        { acc with
            total_deposits := acc.total_deposits + row.2.2
            deposit_amount := acc.deposit_amount + row.2.1 }
      | .WITHDRAWAL =>
        { acc with
            total_withdrawals := acc.total_withdrawals + row.2.2
            withdrawal_amount := acc.withdrawal_amount + row.2.1 })
    ⟨0, 0, 0, 0, 0⟩

/-! ## Specification-side predicates for the report (claim C8) -/

/-- Per-row form of the filter conjunction the handler actually applies:
provided date bounds constrain (widened to day boundaries), a provided
`student_id` or `class_id` constrains unless it is `0` (the handler's JS
truthiness check `if (filters.x)` treats `0` as absent), a provided type
constrains.  `r` carries the joined student profile. -/
def pairPasses (filters : ReportFilters) (r : TransactionRow × StudentProfile) :
    Bool :=
  (match filters.start_date with
   | some d => Nat.ble (startOfDayMs d) r.1.transaction_date
   | none => true) &&
  (match filters.end_date with
   | some d => Nat.ble r.1.transaction_date (endOfDayMs d)
   | none => true) &&
  (match filters.student_id with
   | some sid => sid == 0 || r.1.student_id == sid
   | none => true) &&
  (match filters.class_id with
   | some cid => cid == 0 || r.2.class_id == cid
   | none => true) &&
  (match filters.transaction_type with
   | some ty => r.1.type == ty
   | none => true)

/-- The filter conjunction stated on a ledger entry alone, resolving the
class filter through the entry's student profile. -/
def passesFilters (db : DB) (filters : ReportFilters) (t : TransactionRow) :
    Bool :=
  (match filters.start_date with
   | some d => Nat.ble (startOfDayMs d) t.transaction_date
   | none => true) &&
  (match filters.end_date with
   | some d => Nat.ble t.transaction_date (endOfDayMs d)
   | none => true) &&
  (match filters.student_id with
   | some sid => sid == 0 || t.student_id == sid
   | none => true) &&
  (match filters.class_id with
   | some cid =>
     cid == 0 ||
       (match findStudent db t.student_id with
        | some s => s.class_id == cid
        | none => false)
   | none => true) &&
  (match filters.transaction_type with
   | some ty => t.type == ty
   | none => true)

/-- Modelled from the spec (claim C8's words): a provided filter always
constrains — `studentId` and `classId` included, with no value treated as
absent.  Used only to compare the handler against the claim. -/
def claimPasses (db : DB) (filters : ReportFilters) (t : TransactionRow) :
    Bool :=
  (match filters.start_date with
   | some d => Nat.ble (startOfDayMs d) t.transaction_date
   | none => true) &&
  (match filters.end_date with
   | some d => Nat.ble t.transaction_date (endOfDayMs d)
   | none => true) &&
  (match filters.student_id with
   | some sid => t.student_id == sid
   | none => true) &&
  (match filters.class_id with
   | some cid =>
     match findStudent db t.student_id with
     | some s => s.class_id == cid
     | none => false
   | none => true) &&
  (match filters.transaction_type with
   | some ty => t.type == ty
   | none => true)

/-- Modelled from the spec (claim C8's words): the report returns exactly
the entries satisfying the conjunction of all provided filters. -/
def reportClaimSpec (filters : ReportFilters) (db : DB) : List TransactionRow :=
  db.transactions.filter (claimPasses db filters)

/-- Referential integrity of the ledger: every entry's student profile
exists and that profile's class exists.  Holds in every database-reachable
state (both are foreign keys); the report's inner joins drop nothing under
it. -/
def FkWf (db : DB) : Prop :=
  ∀ t ∈ db.transactions,
    ∃ s, findStudent db t.student_id = some s ∧ s.class_id ∈ db.classes

instance (db : DB) : Decidable (FkWf db) := by
  unfold FkWf; infer_instance

/-! ## JS binary64 arithmetic (claim C6)

The handler computes `parseFloat(student[0].current_balance) ± input.amount`
on JS `number`s, i.e. IEEE-754 binary64.  The model below rounds an exact
rational to the nearest binary64 value (53 significant bits, ties to even),
treating the exponent range as unbounded — faithful for the magnitudes a
balance column can hold. -/

/-- Round to the nearest integer, ties to even. -/
def roundHalfEven (q : ℚ) : ℤ :=
  if q - ⌊q⌋ < 1/2 then ⌊q⌋
  else if 1/2 < q - ⌊q⌋ then ⌊q⌋ + 1
  else if ⌊q⌋ % 2 = 0 then ⌊q⌋ else ⌊q⌋ + 1

/-- Shift `a` into `[1, 2)` by doublings/halvings, returning the exponent:
`ilog2Aux fuel a e` computes `e + ⌊logb 2 a⌋` for positive `a` (fuel
bounds the exponent magnitude). -/
def ilog2Aux : Nat → ℚ → ℤ → ℤ
  | 0, _, e => e
  | fuel + 1, a, e =>
    if a < 1 then ilog2Aux fuel (a * 2) (e - 1)
    else if 2 ≤ a then ilog2Aux fuel (a / 2) (e + 1)
    else e

/-- ⌊log₂ a⌋ for a positive rational (exponent magnitude up to 4200). -/
def ilog2 (a : ℚ) : ℤ := ilog2Aux 4200 a 0

/-- The binary64 value nearest to `q`: scale into `[2^52, 2^53)`, round the
integer significand half-to-even, scale back (sign handled separately). -/
def fp64 (q : ℚ) : ℚ :=
  if q = 0 then 0
  else if q < 0 then
    -((roundHalfEven (|q| * 2 ^ (52 - ilog2 |q|)) : ℚ) * 2 ^ (ilog2 |q| - 52))
  else
    (roundHalfEven (|q| * 2 ^ (52 - ilog2 |q|)) : ℚ) * 2 ^ (ilog2 |q| - 52)

/-- JS `a + b` on two numbers already in binary64: exact sum, rounded. -/
def jsAdd (a b : ℚ) : ℚ := fp64 (a + b)

/-- Lines 29–34 of the handler under JS semantics: `parseFloat` of the
stored balance string, the input amount as received (a binary64 number),
and a binary64 `+`. -/
def newBalanceFloat (storedBalance amount : ℚ) : ℚ :=
  jsAdd (fp64 storedBalance) (fp64 amount)

/-! ## Concrete test data -/

/-- A student profile with balance 100.00 (spec scenario §8). -/
def demoStudent : StudentProfile := ⟨1, 1, "NIS001", 1, 100⟩

/-- One class, one student with balance 100.00, empty ledger. -/
def demoDb : DB := ⟨[1], [demoStudent], [], 1, 0⟩

/-- Ledger with the spec's §8 daily-summary scenario on day 0: a 100.00
DEPOSIT, a 50.00 DEPOSIT and a 30.00 WITHDRAWAL. -/
def demoSummaryDb : DB :=
  ⟨[1], [demoStudent],
    [⟨1, 1, 1, TransactionType.DEPOSIT, 100, 0, 100, none, 0, 0⟩,
     ⟨2, 1, 1, TransactionType.DEPOSIT, 50, 100, 150, none, 5, 5⟩,
     ⟨3, 1, 1, TransactionType.WITHDRAWAL, 30, 150, 120, none, 10, 10⟩],
    4, 11⟩

/-- A database with no classes, students or ledger entries. -/
def emptyDb : DB := ⟨[], [], [], 1, 0⟩

/-- DEPOSIT of 50.00 with description `"Test deposit"` (spec scenario §8). -/
def demoDeposit : CreateTransactionInput :=
  ⟨1, TransactionType.DEPOSIT, 50, some "Test deposit"⟩

/-- WITHDRAWAL of 150.00 against the 100.00 balance (spec scenario §8). -/
def demoOverdraw : CreateTransactionInput :=
  ⟨1, TransactionType.WITHDRAWAL, 150, none⟩

/-- The ledger entry the demo deposit creates. -/
def demoRow : TransactionRow :=
  ⟨1, 1, 1, TransactionType.DEPOSIT, 50, 100, 150, some "Test deposit", 0, 0⟩

/-- demoDb after the demo deposit was posted. -/
def demoDb2 : DB := ⟨[1], [⟨1, 1, "NIS001", 1, 150⟩], [demoRow], 2, 0⟩

/-- Filters providing only `student_id = 0` (JS-falsy). -/
def filtersZeroStudent : ReportFilters := ⟨none, none, some 0, none, none⟩

/-- One student whose stored balance is 0.10. -/
def demoDbTenth : DB := ⟨[1], [⟨1, 1, "NIS001", 1, 1/10⟩], [], 1, 0⟩

/-- DEPOSIT of 50.00 whose description is the empty string. -/
def demoDepositBlank : CreateTransactionInput :=
  ⟨1, TransactionType.DEPOSIT, 50, some ""⟩

/-- The ledger entry the blank-description deposit creates: `description`
is null. -/
def demoRowBlank : TransactionRow :=
  ⟨1, 1, 1, TransactionType.DEPOSIT, 50, 100, 150, none, 0, 0⟩

/-- demoDb after the blank-description deposit was posted. -/
def demoDb2Blank : DB := ⟨[1], [⟨1, 1, "NIS001", 1, 150⟩], [demoRowBlank], 2, 0⟩

/-! ## Helper lemmas -/

/-- What a successful commit did: the fields of the created row and the
exact shape of the committed state. -/
theorem commitTransaction_ok_spec {fault : StorageFault} {staffId : Nat}
    {input : CreateTransactionInput} {db : DB} {student : StudentProfile}
    {newBalance : ℚ} {db' : DB} {row : TransactionRow}
    (h : commitTransaction fault staffId input db student newBalance =
      .ok (db', row)) :
    row = { id := db.nextTransactionId
            student_id := input.student_id
            staff_id := staffId
            type := input.type
            amount := input.amount
            balance_before := student.current_balance
            balance_after := newBalance
            description := match input.description with
              | some s => if s == "" then none else some s
              | none => none
            transaction_date := db.now
            created_at := db.now } ∧
      db' = { classes := db.classes
              students := setBalance db.students input.student_id newBalance
              transactions := db.transactions ++ [row]
              nextTransactionId := db.nextTransactionId + 1
              now := db.now } := by
  unfold commitTransaction at h
  cases hfu : fault.failUpdate with
  | true =>
    rw [hfu] at h
    have h' : (Except.error TxError.storageFailure :
        Except TxError (DB × TransactionRow)) = .ok (db', row) := h
    exact Except.noConfusion h'
  | false =>
    rw [hfu] at h
    cases hfi : fault.failInsert with
    | true =>
      rw [hfi] at h
      have h' : (Except.error TxError.storageFailure :
          Except TxError (DB × TransactionRow)) = .ok (db', row) := h
      exact Except.noConfusion h'
    | false =>
      rw [hfi] at h
      simp only [Bool.false_eq_true, if_false] at h
      simp only [Except.ok.injEq, Prod.mk.injEq] at h
      obtain ⟨hdb, hrow⟩ := h
      subst hrow
      subst hdb
      exact ⟨rfl, rfl⟩

/-- What a successful run of the transaction body did. -/
theorem createTransaction_ok_spec {fault : StorageFault} {staffId : Nat}
    {input : CreateTransactionInput} {db db' : DB} {row : TransactionRow}
    (h : createTransaction fault staffId input db = .ok (db', row)) :
    ∃ st, findStudent db input.student_id = some st ∧
      row.student_id = input.student_id ∧
      row.staff_id = staffId ∧
      row.type = input.type ∧
      row.amount = input.amount ∧
      row.balance_before = st.current_balance ∧
      (input.type = TransactionType.DEPOSIT →
        row.balance_after = st.current_balance + input.amount) ∧
      (input.type = TransactionType.WITHDRAWAL →
        row.balance_after = st.current_balance - input.amount ∧
        ¬ st.current_balance - input.amount < 0) ∧
      row.description = (match input.description with
        | some s => if s == "" then none else some s
        | none => none) ∧
      row.id = db.nextTransactionId ∧
      row.transaction_date = db.now ∧
      row.created_at = db.now ∧
      db'.classes = db.classes ∧
      db'.students = setBalance db.students input.student_id row.balance_after ∧
      db'.transactions = db.transactions ++ [row] ∧
      db'.nextTransactionId = db.nextTransactionId + 1 ∧
      db'.now = db.now := by
  unfold createTransaction at h
  cases hfind : findStudent db input.student_id with
  | none =>
    rw [hfind] at h
    have h' : (Except.error TxError.studentNotFound :
        Except TxError (DB × TransactionRow)) = .ok (db', row) := h
    exact Except.noConfusion h'
  | some st =>
    rw [hfind] at h
    cases hty : input.type with
    | DEPOSIT =>
      rw [hty] at h
      have h2 : commitTransaction fault staffId input db st
          (st.current_balance + input.amount) = .ok (db', row) := h
      obtain ⟨hrow, hdb⟩ := commitTransaction_ok_spec h2
      refine ⟨st, rfl, ?_⟩
      subst hrow; subst hdb
      simp [hty]
    | WITHDRAWAL =>
      rw [hty] at h
      have h2 : (if st.current_balance - input.amount < 0 then
            (Except.error TxError.insufficientBalance :
              Except TxError (DB × TransactionRow))
          else
            commitTransaction fault staffId input db st
              (st.current_balance - input.amount)) = .ok (db', row) := h
      by_cases hneg : st.current_balance - input.amount < 0
      · rw [if_pos hneg] at h2
        exact Except.noConfusion h2
      · rw [if_neg hneg] at h2
        obtain ⟨hrow, hdb⟩ := commitTransaction_ok_spec h2
        refine ⟨st, rfl, ?_⟩
        subst hrow; subst hdb
        simp [hty, hneg]

/-- A successful posting passed validation and committed the body. -/
theorem postTransaction_ok_elim {fault : StorageFault} {staffId : Nat}
    {input : CreateTransactionInput} {db db' : DB} {row : TransactionRow}
    (h : postTransaction fault staffId input db = (db', .ok row)) :
    0 < input.amount ∧
      createTransaction fault staffId input db = .ok (db', row) := by
  unfold postTransaction at h
  by_cases hle : input.amount ≤ 0
  · rw [if_pos hle] at h
    simp at h
  · rw [if_neg hle] at h
    refine ⟨lt_of_not_le hle, ?_⟩
    cases hc : createTransaction fault staffId input db with
    | error e => rw [hc] at h; simp at h
    | ok p =>
      rw [hc] at h
      obtain ⟨p1, p2⟩ := p
      simp only [Prod.mk.injEq, Except.ok.injEq] at h
      obtain ⟨h1, h2⟩ := h
      subst h1; subst h2
      rfl

/-- A failed posting leaves the state exactly as it was (rollback of
`db.transaction`, or rejection before the transaction started). -/
theorem postTransaction_error_state {fault : StorageFault} {staffId : Nat}
    {input : CreateTransactionInput} {db : DB} {e : TxError}
    (h : (postTransaction fault staffId input db).2 = .error e) :
    postTransaction fault staffId input db = (db, .error e) := by
  have h1 : (postTransaction fault staffId input db).1 = db := by
    unfold postTransaction at h ⊢
    by_cases hle : input.amount ≤ 0
    · rw [if_pos hle]
    · rw [if_neg hle] at h ⊢
      cases hc : createTransaction fault staffId input db with
      | error e' => rfl
      | ok p =>
        rw [hc] at h
        obtain ⟨p1, p2⟩ := p
        have h' : (Except.ok p2 : Except TxError TransactionRow) = .error e := h
        exact Except.noConfusion h'
  exact Prod.ext h1 h

/-- Updating student `sid`'s balance rewrites the found profile's balance
and nothing else of the lookup. -/
theorem find?_setBalance_self (l : List StudentProfile) (sid : Nat) (b : ℚ) :
    (setBalance l sid b).find? (fun s => s.id == sid) =
      (l.find? (fun s => s.id == sid)).map
        (fun st => { st with current_balance := b }) := by
  unfold setBalance
  rw [List.find?_map]
  have hq : ((fun s => s.id == sid) ∘
      fun s => if s.id == sid then { s with current_balance := b } else s) =
      fun s : StudentProfile => s.id == sid := by
    funext s
    by_cases hs : s.id = sid <;> simp [hs]
  rw [hq]
  cases hf : l.find? (fun s => s.id == sid) with
  | none => rfl
  | some st =>
    have hp := List.find?_some hf
    have hst : st.id = sid := by simpa using hp
    simp [hp]
    exact fun hn => absurd hst hn

/-- Updating student `sid`'s balance does not affect lookups of other
students. -/
theorem find?_setBalance_other (l : List StudentProfile) {sid sid' : Nat}
    (b : ℚ) (h : sid' ≠ sid) :
    (setBalance l sid b).find? (fun s => s.id == sid') =
      l.find? (fun s => s.id == sid') := by
  unfold setBalance
  rw [List.find?_map]
  have hq : ((fun s => s.id == sid') ∘
      fun s => if s.id == sid then { s with current_balance := b } else s) =
      fun s : StudentProfile => s.id == sid' := by
    funext s
    by_cases hs : s.id = sid <;> simp [hs]
  rw [hq]
  cases hf : l.find? (fun s => s.id == sid') with
  | none => rfl
  | some st =>
    have hp := List.find?_some hf
    have hst : st.id = sid' := by simpa using hp
    have hne : st.id ≠ sid := by rw [hst]; exact h
    simp [hne]

/-- A successful posting rewrites exactly the target student's balance
(to the returned row's `balance_after`). -/
theorem balanceOf_post_ok {fault : StorageFault} {staffId : Nat}
    {input : CreateTransactionInput} {db db' : DB} {row : TransactionRow}
    (h : postTransaction fault staffId input db = (db', .ok row)) (sid : Nat) :
    balanceOf db' sid =
      if sid = input.student_id then some row.balance_after
      else balanceOf db sid := by
  obtain ⟨hpos, hc⟩ := postTransaction_ok_elim h
  obtain ⟨st, hfind, hsid, hstaff, htype, hamount, hbefore, hdep, hwd, hdesc,
    hid, htd, hca, hcls, hstudents, htx, hnext, hnow⟩ :=
    createTransaction_ok_spec hc
  unfold balanceOf findStudent
  rw [hstudents]
  by_cases hs : sid = input.student_id
  · subst hs
    rw [if_pos rfl, find?_setBalance_self]
    unfold findStudent at hfind
    rw [hfind]
    rfl
  · rw [if_neg hs, find?_setBalance_other _ _ hs]

/-- A successful posting appends exactly the returned row to the ledger. -/
theorem transactions_post_ok {fault : StorageFault} {staffId : Nat}
    {input : CreateTransactionInput} {db db' : DB} {row : TransactionRow}
    (h : postTransaction fault staffId input db = (db', .ok row)) :
    db'.transactions = db.transactions ++ [row] := by
  obtain ⟨hpos, hc⟩ := postTransaction_ok_elim h
  obtain ⟨st, hfind, hsid, hstaff, htype, hamount, hbefore, hdep, hwd, hdesc,
    hid, htd, hca, hcls, hstudents, htx, hnext, hnow⟩ :=
    createTransaction_ok_spec hc
  exact htx

theorem depositTotal_cons (sid : Nat) (i : CreateTransactionInput)
    (rest : List CreateTransactionInput) :
    depositTotal sid (i :: rest) =
      (if i.student_id = sid ∧ i.type = TransactionType.DEPOSIT then i.amount
        else 0) + depositTotal sid rest := by
  unfold depositTotal
  rw [List.filter_cons]
  by_cases hc : i.student_id = sid ∧ i.type = TransactionType.DEPOSIT
  · have hb : (i.student_id == sid && i.type == TransactionType.DEPOSIT) = true := by
      simp [hc.1, hc.2]
    simp [hb, hc]
  · have hb : (i.student_id == sid && i.type == TransactionType.DEPOSIT) = false := by
      rcases not_and_or.mp hc with h1 | h2
      · simp [h1]
      · simp [h2]
    simp [hb, hc]

theorem withdrawalTotal_cons (sid : Nat) (i : CreateTransactionInput)
    (rest : List CreateTransactionInput) :
    withdrawalTotal sid (i :: rest) =
      (if i.student_id = sid ∧ i.type = TransactionType.WITHDRAWAL then i.amount
        else 0) + withdrawalTotal sid rest := by
  unfold withdrawalTotal
  rw [List.filter_cons]
  by_cases hc : i.student_id = sid ∧ i.type = TransactionType.WITHDRAWAL
  · have hb : (i.student_id == sid && i.type == TransactionType.WITHDRAWAL) = true := by
      simp [hc.1, hc.2]
    simp [hb, hc]
  · have hb : (i.student_id == sid && i.type == TransactionType.WITHDRAWAL) = false := by
      rcases not_and_or.mp hc with h1 | h2
      · simp [h1]
      · simp [h2]
    simp [hb, hc]

/-- Running a sequence of successful postings changes each student's balance
by the signed total of the amounts posted to that student. -/
theorem postMany_balance {staffId : Nat} (inputs : List CreateTransactionInput) :
    ∀ {db db' : DB} {sid : Nat} {b : ℚ},
      postMany staffId inputs db = some db' →
      balanceOf db sid = some b →
      balanceOf db' sid =
        some (b + depositTotal sid inputs - withdrawalTotal sid inputs) := by
  induction inputs with
  | nil =>
    intro db db' sid b h hb
    have h' : db = db' := by
      have h2 : (some db : Option DB) = some db' := h
      exact Option.some.inj h2
    subst h'
    simpa [depositTotal, withdrawalTotal] using hb
  | cons i rest ih =>
    intro db db' sid b h hb
    unfold postMany at h
    rcases hp : postTransaction noFault staffId i db with ⟨db1, res⟩
    rw [hp] at h
    cases res with
    | error e =>
      have h' : (none : Option DB) = some db' := h
      exact Option.noConfusion h'
    | ok row =>
      have h' : postMany staffId rest db1 = some db' := h
      by_cases hs : sid = i.student_id
      · obtain ⟨hpos, hc⟩ := postTransaction_ok_elim hp
        obtain ⟨st, hfind, hsid, hstaff, htype, hamount, hbefore, hdep, hwd,
          hdesc, hid, htd, hca, hcls, hstudents, htx, hnext, hnow⟩ :=
          createTransaction_ok_spec hc
        have hstb : st.current_balance = b := by
          have hbx : balanceOf db i.student_id = some st.current_balance := by
            unfold balanceOf
            rw [hfind]
            rfl
          rw [hs, hbx] at hb
          exact Option.some.inj hb
        have hb1 : balanceOf db1 sid = some row.balance_after := by
          rw [balanceOf_post_ok hp sid, if_pos hs]
        rw [ih h' hb1]
        congr 1
        rw [depositTotal_cons, withdrawalTotal_cons]
        cases hty : i.type with
        | DEPOSIT =>
          have hba : row.balance_after = b + i.amount := by
            rw [hdep hty, hstb]
          rw [hba,
            if_pos (show i.student_id = sid ∧
              TransactionType.DEPOSIT = TransactionType.DEPOSIT from ⟨hs.symm, rfl⟩),
            if_neg (show ¬(i.student_id = sid ∧
              TransactionType.DEPOSIT = TransactionType.WITHDRAWAL) from
              fun hx => TransactionType.noConfusion hx.2)]
          ring
        | WITHDRAWAL =>
          have hba : row.balance_after = b - i.amount := by
            rw [(hwd hty).1, hstb]
          rw [hba,
            if_neg (show ¬(i.student_id = sid ∧
              TransactionType.WITHDRAWAL = TransactionType.DEPOSIT) from
              fun hx => TransactionType.noConfusion hx.2),
            if_pos (show i.student_id = sid ∧
              TransactionType.WITHDRAWAL = TransactionType.WITHDRAWAL from
              ⟨hs.symm, rfl⟩)]
          ring
      · have hb1 : balanceOf db1 sid = some b := by
          rw [balanceOf_post_ok hp sid, if_neg hs]
          exact hb
        rw [ih h' hb1]
        congr 1
        rw [depositTotal_cons, withdrawalTotal_cons,
          if_neg (fun hx => hs (hx.1.symm)), if_neg (fun hx => hs (hx.1.symm))]
        ring

/-- The commit step can only fail with `storageFailure`. -/
theorem commitTransaction_error_cases {fault : StorageFault} {staffId : Nat}
    {input : CreateTransactionInput} {db : DB} {student : StudentProfile}
    {newBalance : ℚ} {e : TxError}
    (h : commitTransaction fault staffId input db student newBalance =
      .error e) :
    e = TxError.storageFailure := by
  unfold commitTransaction at h
  cases hfu : fault.failUpdate with
  | true =>
    rw [hfu] at h
    have h' : (Except.error TxError.storageFailure :
        Except TxError (DB × TransactionRow)) = .error e := h
    exact (Except.error.inj h').symm
  | false =>
    rw [hfu] at h
    cases hfi : fault.failInsert with
    | true =>
      rw [hfi] at h
      have h' : (Except.error TxError.storageFailure :
          Except TxError (DB × TransactionRow)) = .error e := h
      exact (Except.error.inj h').symm
    | false =>
      rw [hfi] at h
      simp only [Bool.false_eq_true, if_false] at h
      exact Except.noConfusion h

/-- Successful postings preserve nonnegativity of all stored balances. -/
theorem Wf_post_ok {fault : StorageFault} {staffId : Nat}
    {input : CreateTransactionInput} {db db' : DB} {row : TransactionRow}
    (hwf : Wf db)
    (h : postTransaction fault staffId input db = (db', .ok row)) : Wf db' := by
  obtain ⟨hpos, hc⟩ := postTransaction_ok_elim h
  obtain ⟨st, hfind, hsid, hstaff, htype, hamount, hbefore, hdep, hwd, hdesc,
    hid, htd, hca, hcls, hstudents, htx, hnext, hnow⟩ :=
    createTransaction_ok_spec hc
  have hst0 : 0 ≤ st.current_balance := hwf st (List.mem_of_find?_eq_some hfind)
  have hba : 0 ≤ row.balance_after := by
    cases hty : input.type with
    | DEPOSIT =>
      rw [hdep hty]
      linarith
    | WITHDRAWAL =>
      rcases hwd hty with ⟨hba', hnn⟩
      rw [hba']
      linarith
  intro s hsmem
  rw [hstudents] at hsmem
  unfold setBalance at hsmem
  obtain ⟨s0, hs0mem, hs0eq⟩ := List.mem_map.mp hsmem
  cases hb : (s0.id == input.student_id) with
  | true =>
    rw [hb] at hs0eq
    simp only [if_true] at hs0eq
    rw [← hs0eq]
    exact hba
  | false =>
    rw [hb] at hs0eq
    simp only [Bool.false_eq_true, if_false] at hs0eq
    rw [← hs0eq]
    exact hwf s0 hs0mem

/-- Past validation, a posting is the committed-or-rolled-back body. -/
theorem postTransaction_eq_of_pos {fault : StorageFault} {staffId : Nat}
    {input : CreateTransactionInput} {db : DB} (hpos : 0 < input.amount) :
    postTransaction fault staffId input db =
      match createTransaction fault staffId input db with
      | .ok (db', row) => (db', .ok row)
      | .error e => (db, .error e) := by
  unfold postTransaction
  rw [if_neg (not_le.mpr hpos)]

/-- The body of a DEPOSIT at a found student is the commit step. -/
theorem createTransaction_at_found_deposit {fault : StorageFault}
    {staffId : Nat} {input : CreateTransactionInput} {db : DB}
    {st : StudentProfile}
    (hfind : findStudent db input.student_id = some st)
    (hty : input.type = TransactionType.DEPOSIT) :
    createTransaction fault staffId input db =
      commitTransaction fault staffId input db st
        (st.current_balance + input.amount) := by
  unfold createTransaction
  rw [hfind, hty]

/-- The body of a WITHDRAWAL at a found student is the overdraft check
followed by the commit step. -/
theorem createTransaction_at_found_withdrawal {fault : StorageFault}
    {staffId : Nat} {input : CreateTransactionInput} {db : DB}
    {st : StudentProfile}
    (hfind : findStudent db input.student_id = some st)
    (hty : input.type = TransactionType.WITHDRAWAL) :
    createTransaction fault staffId input db =
      if st.current_balance - input.amount < 0 then
        .error TxError.insufficientBalance
      else
        commitTransaction fault staffId input db st
          (st.current_balance - input.amount) := by
  unfold createTransaction
  rw [hfind, hty]

/-! ## The claims -/

/-- **C1**: every successful posting writes a ledger entry with
`balance_after = balance_before + amount` for DEPOSIT and
`balance_after = balance_before - amount` for WITHDRAWAL, with
`balance_after ≥ 0`; the account's new `current_balance` equals the
returned entry's `balance_after`; and any sequence of successful postings
moves `current_balance` by `Σ deposits − Σ withdrawals`. -/
theorem C1_posting_invariants :
    (∀ (fault : StorageFault) (staffId : Nat) (input : CreateTransactionInput)
      (db db' : DB) (row : TransactionRow), Wf db →
      postTransaction fault staffId input db = (db', .ok row) →
        (row.type = TransactionType.DEPOSIT →
          row.balance_after = row.balance_before + row.amount) ∧
        (row.type = TransactionType.WITHDRAWAL →
          row.balance_after = row.balance_before - row.amount) ∧
        0 ≤ row.balance_after ∧
        balanceOf db' row.student_id = some row.balance_after) ∧
    (∀ (staffId : Nat) (inputs : List CreateTransactionInput) (db db' : DB)
      (sid : Nat) (b : ℚ),
      postMany staffId inputs db = some db' →
      balanceOf db sid = some b →
      balanceOf db' sid =
        some (b + depositTotal sid inputs - withdrawalTotal sid inputs)) := by
  constructor
  · intro fault staffId input db db' row hwf h
    obtain ⟨hpos, hc⟩ := postTransaction_ok_elim h
    obtain ⟨st, hfind, hsid, hstaff, htype, hamount, hbefore, hdep, hwd, hdesc,
      hid, htd, hca, hcls, hstudents, htx, hnext, hnow⟩ :=
      createTransaction_ok_spec hc
    have hst0 : 0 ≤ st.current_balance :=
      hwf st (List.mem_of_find?_eq_some hfind)
    refine ⟨?_, ?_, ?_, ?_⟩
    · intro hty
      rw [htype] at hty
      rw [hdep hty, hbefore, hamount]
    · intro hty
      rw [htype] at hty
      rw [(hwd hty).1, hbefore, hamount]
    · cases hty : input.type with
      | DEPOSIT =>
        rw [hdep hty]
        linarith
      | WITHDRAWAL =>
        rcases hwd hty with ⟨hba', hnn⟩
        rw [hba']
        linarith
    · rw [hsid, balanceOf_post_ok h, if_pos rfl]
  · intro staffId inputs db db' sid b h hb
    exact postMany_balance inputs h hb

/-- **C2**: with an existing student and a validated (positive) amount, a
posting fails with `InsufficientBalance` exactly when it is a WITHDRAWAL
whose amount exceeds the current balance, and any such failure leaves the
database unchanged (no balance write, no ledger entry). -/
theorem C2_overdraft_rejected :
    ∀ (fault : StorageFault) (staffId : Nat) (input : CreateTransactionInput)
      (db : DB) (st : StudentProfile),
      findStudent db input.student_id = some st →
      0 < input.amount →
      (((postTransaction fault staffId input db).2 =
          .error TxError.insufficientBalance) ↔
        (input.type = TransactionType.WITHDRAWAL ∧
          st.current_balance - input.amount < 0)) ∧
      (∀ e, (postTransaction fault staffId input db).2 = .error e →
        postTransaction fault staffId input db = (db, .error e)) := by
  intro fault staffId input db st hfind hpos
  refine ⟨?_, fun e he => postTransaction_error_state he⟩
  rw [postTransaction_eq_of_pos hpos]
  cases hty : input.type with
  | DEPOSIT =>
    rw [createTransaction_at_found_deposit hfind hty]
    cases hcm : commitTransaction fault staffId input db st
        (st.current_balance + input.amount) with
    | ok p =>
      obtain ⟨p1, p2⟩ := p
      simp
    | error e =>
      have he := commitTransaction_error_cases hcm
      subst he
      simp
  | WITHDRAWAL =>
    rw [createTransaction_at_found_withdrawal hfind hty]
    by_cases hneg : st.current_balance - input.amount < 0
    · rw [if_pos hneg]
      simp [hneg]
    · rw [if_neg hneg]
      cases hcm : commitTransaction fault staffId input db st
          (st.current_balance - input.amount) with
      | ok p =>
        obtain ⟨p1, p2⟩ := p
        simp [hneg]
      | error e =>
        have he := commitTransaction_error_cases hcm
        subst he
        simp [hneg]

/-- **C3**: a posting that fails — for any reason, injected storage faults
during the commit included — leaves the whole database state exactly as it
was before the call. -/
theorem C3_failed_posting_rolls_back :
    ∀ (fault : StorageFault) (staffId : Nat) (input : CreateTransactionInput)
      (db : DB) (e : TxError),
      (postTransaction fault staffId input db).2 = .error e →
      postTransaction fault staffId input db = (db, .error e) :=
  fun _ _ _ _ _ h => postTransaction_error_state h

/-- **C5**: a posting with `amount ≤ 0` is rejected as `InvalidAmount` by
input validation, before the handler reads anything — uniformly in the
database state, and with no state change. -/
theorem C5_invalid_amount_rejected_first :
    ∀ (fault : StorageFault) (staffId : Nat) (input : CreateTransactionInput)
      (db : DB),
      input.amount ≤ 0 →
      postTransaction fault staffId input db = (db, .error TxError.invalidAmount) := by
  intro fault staffId input db hle
  unfold postTransaction
  rw [if_pos hle]

/-- **C10**: a successful posting whose description is the empty string or
absent stores and returns `description = none` (the handler's
`input.description || null` coerces falsy values to null). -/
theorem C10_falsy_description_null :
    ∀ (fault : StorageFault) (staffId : Nat) (input : CreateTransactionInput)
      (db db' : DB) (row : TransactionRow),
      (input.description = some "" ∨ input.description = none) →
      postTransaction fault staffId input db = (db', .ok row) →
      row.description = none ∧ db'.transactions = db.transactions ++ [row] := by
  intro fault staffId input db db' row hd h
  obtain ⟨hpos, hc⟩ := postTransaction_ok_elim h
  obtain ⟨st, hfind, hsid, hstaff, htype, hamount, hbefore, hdep, hwd, hdesc,
    hid, htd, hca, hcls, hstudents, htx, hnext, hnow⟩ :=
    createTransaction_ok_spec hc
  refine ⟨?_, htx⟩
  rcases hd with hd | hd
  · rw [hdesc, hd]
    simp
  · rw [hdesc, hd]

/-- **C4 is false as stated**: `updateStudentBalance` (students.ts) is a
second code path that changes a student's `current_balance` — here it moves
the demo student's balance from 100 to −5, which is also negative. -/
theorem C4_counterexample :
    balanceOf (updateStudentBalance demoDb 1 (-5)) 1 = some (-5) ∧
    balanceOf demoDb 1 = some 100 ∧
    (-5 : ℚ) < 0 := by
  refine ⟨?_, ?_, by norm_num⟩
  · simp [updateStudentBalance, setBalance, balanceOf, findStudent, demoDb,
      demoStudent]
  · simp [balanceOf, findStudent, demoDb, demoStudent]

/-- **C4 amended**: `updateStudentBalance` is a second code path that
alters `current_balance` — it sets the target student's balance to the
given value, with no nonnegativity check — while the Transaction Poster's
successful commits preserve `current_balance ≥ 0` across all accounts. -/
theorem C4_amended_write_paths :
    (∀ (db : DB) (sid : Nat) (v : ℚ) (st : StudentProfile),
      findStudent db sid = some st →
      balanceOf (updateStudentBalance db sid v) sid = some v) ∧
    (∀ (fault : StorageFault) (staffId : Nat) (input : CreateTransactionInput)
      (db db' : DB) (row : TransactionRow), Wf db →
      postTransaction fault staffId input db = (db', .ok row) → Wf db') := by
  constructor
  · intro db sid v st hfind
    unfold findStudent at hfind
    unfold balanceOf updateStudentBalance findStudent
    rw [find?_setBalance_self, hfind]
    rfl
  · intro fault staffId input db db' row hwf h
    exact Wf_post_ok hwf h

/-! ## Witnesses -/

/-- Witness for C1 at the spec's §8 scenario: balance 100.00, DEPOSIT of
50.00 with description `"Test deposit"`. -/
theorem C1_witness :
    Wf demoDb ∧
    postTransaction noFault 1 demoDeposit demoDb = (demoDb2, .ok demoRow) ∧
    (demoRow.type = TransactionType.DEPOSIT →
      demoRow.balance_after = demoRow.balance_before + demoRow.amount) ∧
    0 ≤ demoRow.balance_after ∧
    balanceOf demoDb2 demoRow.student_id = some demoRow.balance_after ∧
    postMany 1 [demoDeposit] demoDb = some demoDb2 ∧
    balanceOf demoDb 1 = some 100 ∧
    balanceOf demoDb2 1 =
      some (100 + depositTotal 1 [demoDeposit] - withdrawalTotal 1 [demoDeposit]) := by
  have hwf : Wf demoDb := by
    intro s hs
    simp [demoDb, demoStudent] at hs
    subst hs
    norm_num [demoStudent]
  have hpost : postTransaction noFault 1 demoDeposit demoDb =
      (demoDb2, .ok demoRow) := by
    norm_num [postTransaction, createTransaction, commitTransaction, findStudent,
      setBalance, noFault, demoDeposit, demoDb, demoStudent, demoDb2, demoRow]
    exact fun h => absurd h (by decide)
  have h1 := C1_posting_invariants.1 noFault 1 demoDeposit demoDb demoDb2
    demoRow hwf hpost
  have hmany : postMany 1 [demoDeposit] demoDb = some demoDb2 := by
    simp [postMany, hpost]
  have hb : balanceOf demoDb 1 = some 100 := by
    simp [balanceOf, findStudent, demoDb, demoStudent]
  have h2 := C1_posting_invariants.2 1 [demoDeposit] demoDb demoDb2 1 100
    hmany hb
  exact ⟨hwf, hpost, h1.1, h1.2.2.1, h1.2.2.2, hmany, hb, h2⟩

/-- Witness for C2 at the spec's §8 scenario: balance 100.00, WITHDRAWAL of
150.00 → `InsufficientBalance`, state unchanged. -/
theorem C2_witness :
    (postTransaction noFault 1 demoOverdraw demoDb).2 =
      .error TxError.insufficientBalance ∧
    postTransaction noFault 1 demoOverdraw demoDb =
      (demoDb, .error TxError.insufficientBalance) := by
  have hfind : findStudent demoDb demoOverdraw.student_id = some demoStudent := by
    simp [findStudent, demoDb, demoStudent, demoOverdraw]
  have hpos : (0 : ℚ) < demoOverdraw.amount := by norm_num [demoOverdraw]
  have h := C2_overdraft_rejected noFault 1 demoOverdraw demoDb demoStudent
    hfind hpos
  have hcond : demoOverdraw.type = TransactionType.WITHDRAWAL ∧
      demoStudent.current_balance - demoOverdraw.amount < 0 := by
    exact ⟨rfl, by norm_num [demoStudent, demoOverdraw]⟩
  have herr := h.1.mpr hcond
  exact ⟨herr, h.2 _ herr⟩

/-- Witness for C3: the ledger insert fails mid-transaction (after the
balance update would have been applied) and the whole posting rolls back. -/
theorem C3_witness :
    (postTransaction ⟨false, true⟩ 1 demoDeposit demoDb).2 =
      .error TxError.storageFailure ∧
    postTransaction ⟨false, true⟩ 1 demoDeposit demoDb =
      (demoDb, .error TxError.storageFailure) := by
  have herr : (postTransaction ⟨false, true⟩ 1 demoDeposit demoDb).2 =
      .error TxError.storageFailure := by
    norm_num [postTransaction, createTransaction, commitTransaction,
      findStudent, setBalance, demoDeposit, demoDb, demoStudent]
  exact ⟨herr, C3_failed_posting_rolls_back ⟨false, true⟩ 1 demoDeposit demoDb
    TxError.storageFailure herr⟩

/-- Witness for C5: a DEPOSIT of −1 is rejected as `InvalidAmount` even on
a database with no students at all (the check precedes every read). -/
theorem C5_witness :
    postTransaction noFault 1 ⟨1, TransactionType.DEPOSIT, -1, none⟩ emptyDb =
      (emptyDb, .error TxError.invalidAmount) :=
  C5_invalid_amount_rejected_first noFault 1
    ⟨1, TransactionType.DEPOSIT, -1, none⟩ emptyDb (by norm_num)

/-- Witness for C10: posting with `description = some ""` stores null. -/
theorem C10_witness :
    postTransaction noFault 1 demoDepositBlank demoDb =
      (demoDb2Blank, .ok demoRowBlank) ∧
    demoRowBlank.description = none ∧
    demoDb2Blank.transactions = demoDb.transactions ++ [demoRowBlank] := by
  have hpost : postTransaction noFault 1 demoDepositBlank demoDb =
      (demoDb2Blank, .ok demoRowBlank) := by
    norm_num [postTransaction, createTransaction, commitTransaction, findStudent,
      setBalance, noFault, demoDepositBlank, demoDb, demoStudent, demoDb2Blank,
      demoRowBlank]
  have h := C10_falsy_description_null noFault 1 demoDepositBlank demoDb
    demoDb2Blank demoRowBlank (Or.inl rfl) hpost
  exact ⟨hpost, h.1, h.2⟩

/-- Witness for the amended C4: `updateStudentBalance` drives the demo
balance to −5, while the demo posting preserves nonnegativity. -/
theorem C4_amended_witness :
    balanceOf (updateStudentBalance demoDb 1 (-5)) 1 = some (-5) ∧ Wf demoDb2 := by
  have hfind : findStudent demoDb 1 = some demoStudent := by
    simp [findStudent, demoDb, demoStudent]
  have h1 := C4_amended_write_paths.1 demoDb 1 (-5) demoStudent hfind
  have hwf : Wf demoDb := by
    intro s hs
    simp [demoDb, demoStudent] at hs
    subst hs
    norm_num [demoStudent]
  have hpost : postTransaction noFault 1 demoDeposit demoDb =
      (demoDb2, .ok demoRow) := by
    norm_num [postTransaction, createTransaction, commitTransaction, findStudent,
      setBalance, noFault, demoDeposit, demoDb, demoStudent, demoDb2, demoRow]
    exact fun h => absurd h (by decide)
  exact ⟨h1, C4_amended_write_paths.2 noFault 1 demoDeposit demoDb demoDb2
    demoRow hwf hpost⟩

/-- A list of ledger entries splits by the two transaction types. -/
theorem length_type_partition (l : List TransactionRow) :
    (l.filter fun t => t.type == TransactionType.DEPOSIT).length +
      (l.filter fun t => t.type == TransactionType.WITHDRAWAL).length =
      l.length := by
  induction l with
  | nil => rfl
  | cons t l ih =>
    rw [List.filter_cons, List.filter_cons]
    cases hty : t.type with
    | DEPOSIT =>
      simp
      omega
    | WITHDRAWAL =>
      simp
      omega

/-- The grouped fold of `getDailyTransactionSummary` computes the closed
per-type formulas (including the all-zero case for an absent group). -/
theorem getDailyTransactionSummary_eq (date : Nat) (db : DB) :
    getDailyTransactionSummary date db =
      ⟨(depositsOnDay date db).length + (withdrawalsOnDay date db).length,
       (depositsOnDay date db).length,
       (withdrawalsOnDay date db).length,
       ((depositsOnDay date db).map (·.amount)).sum,
       ((withdrawalsOnDay date db).map (·.amount)).sum⟩ := by
  unfold getDailyTransactionSummary summaryRows
  cases hdep : depositsOnDay date db with
  | nil =>
    cases hwd : withdrawalsOnDay date db with
    | nil => rfl
    | cons w ws =>
      simp [DailySummary.mk.injEq]
  | cons d ds =>
    cases hwd : withdrawalsOnDay date db with
    | nil =>
      simp [DailySummary.mk.injEq]
    | cons w ws =>
      simp [DailySummary.mk.injEq]

/-- **C9**: `getDailyTransactionSummary` aggregates exactly the entries of
the given calendar day, grouped by type — `total_transactions` counts the
matching entries, the per-type counts count them, the per-type amounts sum
them, and a day with no entries yields the all-zero summary. -/
theorem C9_daily_summary :
    ∀ (date : Nat) (db : DB),
      (getDailyTransactionSummary date db).total_transactions =
        (entriesOnDay date db).length ∧
      (getDailyTransactionSummary date db).total_deposits =
        (depositsOnDay date db).length ∧
      (getDailyTransactionSummary date db).total_withdrawals =
        (withdrawalsOnDay date db).length ∧
      (getDailyTransactionSummary date db).deposit_amount =
        ((depositsOnDay date db).map (·.amount)).sum ∧
      (getDailyTransactionSummary date db).withdrawal_amount =
        ((withdrawalsOnDay date db).map (·.amount)).sum ∧
      (entriesOnDay date db = [] →
        getDailyTransactionSummary date db = ⟨0, 0, 0, 0, 0⟩) := by
  intro date db
  have hpart : (depositsOnDay date db).length +
      (withdrawalsOnDay date db).length = (entriesOnDay date db).length :=
    length_type_partition (entriesOnDay date db)
  rw [getDailyTransactionSummary_eq]
  refine ⟨hpart, rfl, rfl, rfl, rfl, ?_⟩
  intro hm
  have hd0 : depositsOnDay date db = [] := by
    unfold depositsOnDay
    rw [hm]
    rfl
  have hw0 : withdrawalsOnDay date db = [] := by
    unfold withdrawalsOnDay
    rw [hm]
    rfl
  rw [hd0, hw0]
  rfl

/-- Witness for C9: the spec's §8 scenario day (100.00 DEPOSIT, 50.00
DEPOSIT, 30.00 WITHDRAWAL → ⟨3, 2, 1, 150, 30⟩) and a day with no entries
(→ all zeros, via the claim theorem's implication). -/
theorem C9_witness :
    entriesOnDay 0 emptyDb = [] ∧
    getDailyTransactionSummary 0 emptyDb = ⟨0, 0, 0, 0, 0⟩ ∧
    getDailyTransactionSummary 0 demoSummaryDb = ⟨3, 2, 1, 150, 30⟩ := by
  have hempty : entriesOnDay 0 emptyDb = [] := by
    simp [entriesOnDay, emptyDb]
  refine ⟨hempty, (C9_daily_summary 0 emptyDb).2.2.2.2.2 hempty, ?_⟩
  simp +decide [getDailyTransactionSummary, summaryRows, depositsOnDay,
    withdrawalsOnDay, entriesOnDay, demoSummaryDb, startOfDayMs, endOfDayMs,
    msPerDay]
  norm_num

/-- Membership in the report's joined base rows. -/
theorem mem_reportBase {db : DB} {r : TransactionRow × StudentProfile} :
    r ∈ reportBase db ↔
      r.1 ∈ db.transactions ∧ findStudent db r.1.student_id = some r.2 ∧
        r.2.class_id ∈ db.classes := by
  unfold reportBase
  rw [List.mem_filterMap]
  constructor
  · rintro ⟨a, ha, hfa⟩
    cases hfs : findStudent db a.student_id with
    | none =>
      rw [hfs] at hfa
      have h' : (none : Option (TransactionRow × StudentProfile)) = some r := hfa
      exact Option.noConfusion h'
    | some s =>
      rw [hfs] at hfa
      have hfa' : (if db.classes.contains s.class_id = true then some (a, s)
          else none) = some r := hfa
      by_cases hcl : db.classes.contains s.class_id = true
      · rw [if_pos hcl] at hfa'
        obtain rfl : (a, s) = r := Option.some.inj hfa'
        exact ⟨List.mem_insertionSort createdDesc |>.mp ha, hfs, by simpa using hcl⟩
      · rw [if_neg hcl] at hfa'
        exact Option.noConfusion hfa'
  · rintro ⟨hmem, hfs, hcl⟩
    refine ⟨r.1, List.mem_insertionSort createdDesc |>.mpr hmem, ?_⟩
    rw [hfs]
    show (if db.classes.contains r.2.class_id = true then some (r.1, r.2)
      else none) = some r
    rw [if_pos (by simpa using hcl)]

/-- Membership after the start-date stage. -/
theorem mem_filterStart {sd : Option Nat}
    {l : List (TransactionRow × StudentProfile)}
    {r : TransactionRow × StudentProfile} :
    r ∈ filterStart sd l ↔
      r ∈ l ∧ (match sd with
        | some d => Nat.ble (startOfDayMs d) r.1.transaction_date
        | none => true) = true := by
  cases sd <;> simp [filterStart, List.mem_filter]

/-- Membership after the end-date stage. -/
theorem mem_filterEnd {ed : Option Nat}
    {l : List (TransactionRow × StudentProfile)}
    {r : TransactionRow × StudentProfile} :
    r ∈ filterEnd ed l ↔
      r ∈ l ∧ (match ed with
        | some d => Nat.ble r.1.transaction_date (endOfDayMs d)
        | none => true) = true := by
  cases ed <;> simp [filterEnd, List.mem_filter]

/-- Membership after the student stage (with the truthiness skip). -/
theorem mem_filterStudent {sid : Option Nat}
    {l : List (TransactionRow × StudentProfile)}
    {r : TransactionRow × StudentProfile} :
    r ∈ filterStudent sid l ↔
      r ∈ l ∧ (match sid with
        | some v => v == 0 || r.1.student_id == v
        | none => true) = true := by
  cases sid with
  | none => simp [filterStudent]
  | some v =>
    by_cases hv : (v == 0) = true
    · simp [filterStudent, hv]
    · simp only [filterStudent, if_neg hv]
      simp [List.mem_filter, hv]

/-- Membership after the class stage (with the truthiness skip). -/
theorem mem_filterClass {cid : Option Nat}
    {l : List (TransactionRow × StudentProfile)}
    {r : TransactionRow × StudentProfile} :
    r ∈ filterClass cid l ↔
      r ∈ l ∧ (match cid with
        | some v => v == 0 || r.2.class_id == v
        | none => true) = true := by
  cases cid with
  | none => simp [filterClass]
  | some v =>
    by_cases hv : (v == 0) = true
    · simp [filterClass, hv]
    · simp only [filterClass, if_neg hv]
      simp [List.mem_filter, hv]

/-- Membership after the type stage. -/
theorem mem_filterType {ty : Option TransactionType}
    {l : List (TransactionRow × StudentProfile)}
    {r : TransactionRow × StudentProfile} :
    r ∈ filterType ty l ↔
      r ∈ l ∧ (match ty with
        | some v => r.1.type == v
        | none => true) = true := by
  cases ty <;> simp [filterType, List.mem_filter]

/-- Membership in the report, characterized over the joined pair. -/
theorem mem_report_pair {filters : ReportFilters} {db : DB}
    {t : TransactionRow} :
    t ∈ getTransactionsReport filters db ↔
      ∃ s, (t, s) ∈ reportBase db ∧ pairPasses filters (t, s) = true := by
  unfold getTransactionsReport
  rw [List.mem_map]
  constructor
  · rintro ⟨r, hr, hr1⟩
    rw [mem_filterType] at hr
    obtain ⟨hr, h5⟩ := hr
    rw [mem_filterClass] at hr
    obtain ⟨hr, h4⟩ := hr
    rw [mem_filterStudent] at hr
    obtain ⟨hr, h3⟩ := hr
    rw [mem_filterEnd] at hr
    obtain ⟨hr, h2⟩ := hr
    rw [mem_filterStart] at hr
    obtain ⟨hr, h1⟩ := hr
    refine ⟨r.2, ?_, ?_⟩
    · rw [← hr1]
      simpa using hr
    · rw [← hr1]
      unfold pairPasses
      simp only [h1, h2, h3, h4, h5, Bool.and_self]
  · rintro ⟨s, hmem, hpass⟩
    unfold pairPasses at hpass
    simp only [Bool.and_eq_true] at hpass
    obtain ⟨⟨⟨⟨h1, h2⟩, h3⟩, h4⟩, h5⟩ := hpass
    refine ⟨(t, s), ?_, rfl⟩
    rw [mem_filterType, mem_filterClass, mem_filterStudent, mem_filterEnd,
      mem_filterStart]
    exact ⟨⟨⟨⟨⟨hmem, h1⟩, h2⟩, h3⟩, h4⟩, h5⟩

/-- With the joined student profile fixed, the row-level and pair-level
filter conjunctions agree. -/
theorem passesFilters_eq_pairPasses {db : DB} {filters : ReportFilters}
    {t : TransactionRow} {s : StudentProfile}
    (hfs : findStudent db t.student_id = some s) :
    passesFilters db filters t = pairPasses filters (t, s) := by
  unfold passesFilters pairPasses
  rw [hfs]

/-- **C8 amended**: under referential integrity, the report returns exactly
the ledger entries satisfying the conjunction of the provided filters,
except that a provided `student_id` or `class_id` equal to `0` imposes no
constraint (the handler's JS truthiness check treats `0` as absent); date
bounds are inclusive after day-boundary widening. -/
theorem C8_report_filters_amended :
    ∀ (filters : ReportFilters) (db : DB) (t : TransactionRow), FkWf db →
      (t ∈ getTransactionsReport filters db ↔
        t ∈ db.transactions ∧ passesFilters db filters t = true) := by
  intro filters db t hfk
  rw [mem_report_pair]
  constructor
  · rintro ⟨s, hbase, hpass⟩
    rw [mem_reportBase] at hbase
    obtain ⟨hmem, hfs, hcl⟩ := hbase
    refine ⟨hmem, ?_⟩
    rw [passesFilters_eq_pairPasses hfs]
    exact hpass
  · rintro ⟨hmem, hpass⟩
    obtain ⟨s, hfs, hcl⟩ := hfk t hmem
    refine ⟨s, mem_reportBase.mpr ⟨hmem, hfs, hcl⟩, ?_⟩
    rw [← passesFilters_eq_pairPasses hfs]
    exact hpass

/-- **C8 is false as stated**: with a provided `student_id = 0`, the
handler returns every entry (JS truthiness skips the filter), while the
claim's conjunction-of-provided-filters semantics returns none — no ledger
entry has `student_id = 0`. -/
theorem C8_counterexample :
    demoRow ∈ getTransactionsReport filtersZeroStudent demoDb2 ∧
    claimPasses demoDb2 filtersZeroStudent demoRow = false ∧
    reportClaimSpec filtersZeroStudent demoDb2 = [] := by
  refine ⟨?_, ?_, ?_⟩
  · simp [getTransactionsReport, filterType, filterClass, filterStudent,
      filterEnd, filterStart, filtersZeroStudent, reportBase,
      List.insertionSort, List.orderedInsert, findStudent, demoDb2, demoRow,
      demoStudent]
  · simp +decide [claimPasses, filtersZeroStudent, demoRow]
  · simp +decide [reportClaimSpec, claimPasses, filtersZeroStudent, demoDb2,
      demoRow]

/-- Witness for the amended C8: a database satisfying referential integrity
with a provided (nonzero) student filter. -/
theorem C8_witness :
    FkWf demoDb2 ∧
    (demoRow ∈ getTransactionsReport ⟨none, none, some 1, none, none⟩ demoDb2 ↔
      demoRow ∈ demoDb2.transactions ∧
        passesFilters demoDb2 ⟨none, none, some 1, none, none⟩ demoRow = true) := by
  have hfk : FkWf demoDb2 := by
    intro t ht
    simp [demoDb2, demoRow] at ht
    subst ht
    refine ⟨⟨1, 1, "NIS001", 1, 150⟩, ?_, ?_⟩
    · simp [findStudent, demoDb2, demoRow]
    · simp [demoDb2]
  exact ⟨hfk, C8_report_filters_amended ⟨none, none, some 1, none, none⟩
    demoDb2 demoRow hfk⟩

theorem ilog2Aux_succ (fuel : Nat) (a : ℚ) (e : ℤ) :
    ilog2Aux (fuel + 1) a e =
      if a < 1 then ilog2Aux fuel (a * 2) (e - 1)
      else if 2 ≤ a then ilog2Aux fuel (a / 2) (e + 1)
      else e := rfl

theorem ilog2Aux_up (fuel : Nat) (a : ℚ) (e : ℤ) (h1 : a < 1) :
    ilog2Aux (fuel + 1) a e = ilog2Aux fuel (a * 2) (e - 1) := by
  rw [ilog2Aux_succ, if_pos h1]

theorem ilog2Aux_done (fuel : Nat) (a : ℚ) (e : ℤ) (h1 : ¬ a < 1)
    (h2 : ¬ 2 ≤ a) : ilog2Aux (fuel + 1) a e = e := by
  rw [ilog2Aux_succ, if_neg h1, if_neg h2]

theorem ilog2_tenth : ilog2 (1/10 : ℚ) = -4 := by
  unfold ilog2
  rw [show (4200 : ℕ) = 4199 + 1 from rfl, ilog2Aux_up _ _ _ (by norm_num)]
  rw [show (1/10 : ℚ) * 2 = 1/5 by norm_num]
  rw [show (4199 : ℕ) = 4198 + 1 from rfl, ilog2Aux_up _ _ _ (by norm_num)]
  rw [show (1/5 : ℚ) * 2 = 2/5 by norm_num]
  rw [show (4198 : ℕ) = 4197 + 1 from rfl, ilog2Aux_up _ _ _ (by norm_num)]
  rw [show (2/5 : ℚ) * 2 = 4/5 by norm_num]
  rw [show (4197 : ℕ) = 4196 + 1 from rfl, ilog2Aux_up _ _ _ (by norm_num)]
  rw [show (4/5 : ℚ) * 2 = 8/5 by norm_num]
  rw [show (4196 : ℕ) = 4195 + 1 from rfl,
    ilog2Aux_done _ _ _ (by norm_num) (by norm_num)]
  norm_num

theorem ilog2_fifth : ilog2 (2/10 : ℚ) = -3 := by
  unfold ilog2
  rw [show (4200 : ℕ) = 4199 + 1 from rfl, ilog2Aux_up _ _ _ (by norm_num)]
  rw [show (2/10 : ℚ) * 2 = 2/5 by norm_num]
  rw [show (4199 : ℕ) = 4198 + 1 from rfl, ilog2Aux_up _ _ _ (by norm_num)]
  rw [show (2/5 : ℚ) * 2 = 4/5 by norm_num]
  rw [show (4198 : ℕ) = 4197 + 1 from rfl, ilog2Aux_up _ _ _ (by norm_num)]
  rw [show (4/5 : ℚ) * 2 = 8/5 by norm_num]
  rw [show (4197 : ℕ) = 4196 + 1 from rfl,
    ilog2Aux_done _ _ _ (by norm_num) (by norm_num)]
  norm_num

theorem ilog2_sum3 :
    ilog2 ((10808639105689191 : ℚ) / 2 ^ 55) = -2 := by
  unfold ilog2
  rw [show (4200 : ℕ) = 4199 + 1 from rfl, ilog2Aux_up _ _ _ (by norm_num)]
  rw [show (10808639105689191 : ℚ) / 2 ^ 55 * 2 = 10808639105689191 / 2 ^ 54 by
    norm_num]
  rw [show (4199 : ℕ) = 4198 + 1 from rfl, ilog2Aux_up _ _ _ (by norm_num)]
  rw [show (10808639105689191 : ℚ) / 2 ^ 54 * 2 = 10808639105689191 / 2 ^ 53 by
    norm_num]
  rw [show (4198 : ℕ) = 4197 + 1 from rfl,
    ilog2Aux_done _ _ _ (by norm_num) (by norm_num)]
  norm_num

/-- `parseFloat("0.10")`: the binary64 value nearest to 1/10. -/
theorem fp64_tenth : fp64 (1/10 : ℚ) = 3602879701896397 / 2 ^ 55 := by
  unfold fp64
  rw [if_neg (by norm_num : ¬ (1/10 : ℚ) = 0),
    if_neg (by norm_num : ¬ (1/10 : ℚ) < 0),
    show |(1/10 : ℚ)| = 1/10 from abs_of_pos (by norm_num),
    ilog2_tenth]
  rw [show (1/10 : ℚ) * 2 ^ ((52 : ℤ) - (-4)) = 7205759403792793 + 3/5 by
    norm_num]
  rw [show roundHalfEven ((7205759403792793 : ℚ) + 3/5) = 7205759403792794 by
    unfold roundHalfEven
    rw [show ⌊(7205759403792793 : ℚ) + 3/5⌋ = 7205759403792793 by
      rw [Int.floor_eq_iff]
      norm_num]
    norm_num]
  norm_num

/-- The binary64 value nearest to 2/10. -/
theorem fp64_fifth : fp64 (2/10 : ℚ) = 7205759403792794 / 2 ^ 55 := by
  unfold fp64
  rw [if_neg (by norm_num : ¬ (2/10 : ℚ) = 0),
    if_neg (by norm_num : ¬ (2/10 : ℚ) < 0),
    show |(2/10 : ℚ)| = 2/10 from abs_of_pos (by norm_num),
    ilog2_fifth]
  rw [show (2/10 : ℚ) * 2 ^ ((52 : ℤ) - (-3)) = 7205759403792793 + 3/5 by
    norm_num]
  rw [show roundHalfEven ((7205759403792793 : ℚ) + 3/5) = 7205759403792794 by
    unfold roundHalfEven
    rw [show ⌊(7205759403792793 : ℚ) + 3/5⌋ = 7205759403792793 by
      rw [Int.floor_eq_iff]
      norm_num]
    norm_num]
  norm_num

/-- Rounding the exact sum of the two doubles: the tie — exactly halfway —
goes to the even significand, giving a value different from 3/10. -/
theorem fp64_sum3 :
    fp64 ((10808639105689191 : ℚ) / 2 ^ 55) = 5404319552844596 / 2 ^ 54 := by
  unfold fp64
  rw [if_neg (by norm_num : ¬ (10808639105689191 : ℚ) / 2 ^ 55 = 0),
    if_neg (by norm_num : ¬ (10808639105689191 : ℚ) / 2 ^ 55 < 0),
    show |(10808639105689191 : ℚ) / 2 ^ 55| = 10808639105689191 / 2 ^ 55 from
      abs_of_pos (by norm_num),
    ilog2_sum3]
  rw [show (10808639105689191 : ℚ) / 2 ^ 55 * 2 ^ ((52 : ℤ) - (-2)) =
      5404319552844595 + 1/2 by norm_num]
  rw [show roundHalfEven ((5404319552844595 : ℚ) + 1/2) = 5404319552844596 by
    unfold roundHalfEven
    rw [show ⌊(5404319552844595 : ℚ) + 1/2⌋ = 5404319552844595 by
      rw [Int.floor_eq_iff]
      norm_num]
    norm_num]
  norm_num

/-- **C6 evidence**: the handler's JS arithmetic
(`parseFloat(balance) + amount` on binary64 numbers) computes a new balance
different from the exact 2-digit decimal result at stored balance 0.10 and
deposit 0.20, while the exact-rational reading of the same code yields
exactly 3/10 — the code's arithmetic is binary floating point, not the
exact fixed-point decimal the claim asserts. -/
theorem C6_binary_float_divergence :
    newBalanceFloat (1/10) (2/10) = 5404319552844596 / 2 ^ 54 ∧
    (5404319552844596 : ℚ) / 2 ^ 54 - 3/10 = 1 / 22517998136852480 ∧
    (∃ db' row,
      postTransaction noFault 1 ⟨1, TransactionType.DEPOSIT, 2/10, none⟩
        demoDbTenth = (db', .ok row) ∧ row.balance_after = 3/10) := by
  refine ⟨?_, by norm_num, ?_⟩
  · unfold newBalanceFloat jsAdd
    rw [fp64_tenth, fp64_fifth]
    rw [show (3602879701896397 : ℚ) / 2 ^ 55 + 7205759403792794 / 2 ^ 55 =
      10808639105689191 / 2 ^ 55 by norm_num]
    rw [fp64_sum3]
  · refine ⟨⟨[1], [⟨1, 1, "NIS001", 1, 3/10⟩],
      [⟨1, 1, 1, TransactionType.DEPOSIT, 2/10, 1/10, 3/10, none, 0, 0⟩], 2, 0⟩,
      ⟨1, 1, 1, TransactionType.DEPOSIT, 2/10, 1/10, 3/10, none, 0, 0⟩, ?_, rfl⟩
    norm_num [postTransaction, createTransaction, commitTransaction,
      findStudent, setBalance, noFault, demoDbTenth]

end SchoolSavings
